import Mathlib

/-!
Verification of the gitlab-mcp-server core: the group hierarchy walker
(internal/gitlab/service.go), the pipeline filter and bulk deleter
(internal/gitlab pipeline service), and the age computation.

Modelling conventions:
* The remote GitLab API client is an external collaborator; it is modelled
  as a record of pure oracle functions returning Except values.  A page of
  results carries the next-page indicator from the response header.
* Go time.Time values are modelled by their instant, an Int of Unix
  nanoseconds.  The Go UTC() call changes only the displayed location and
  never the instant, and time comparison (Before) compares instants, so UTC
  normalisation is the identity in this model.
* Go float64 arithmetic in the age computation is modelled by exact
  rational arithmetic; int(x) truncation toward zero and math.Round
  (half away from zero) are given explicit rational semantics.
* Errors are modelled as their message strings; fmt.Errorf wrapping with
  an operation name becomes string prefixing.
-/

namespace GitLabMCP

/-- One page of results from the remote API, with the next-page indicator
from the response.  A value of none models a missing next-page header
(Go NextPage equal to 0) as well as a nil response. -/
structure Page (α : Type) where
  items : List α
  nextPage : Option Nat
deriving Repr, DecidableEq

/-- Remote project data as reported by the GitLab API.  The service copies
the listed fields into its own Project model; the archived flag is remote
state consulted only by the server-side archived filter. -/
structure APIProject where
  id : Int
  name : String
  path : String
  pathWithNamespace : String
  webURL : String
  httpURLToRepo : String
  archived : Bool
deriving Repr, DecidableEq

/-- Remote group data (the fields the service reads). -/
structure APIGroup where
  id : Int
  path : String
deriving Repr, DecidableEq

/-- Remote subgroup data (the fields the service reads). -/
structure APISubgroup where
  id : Int
  name : String
  path : String
  fullPath : String
  webURL : String
deriving Repr, DecidableEq

/-- models.go Project: the projection of remote project data returned to
MCP clients. -/
structure Project where
  id : Int
  name : String
  path : String
  pathWithNamespace : String
  webURL : String
  cloneURL : String
  groupPath : String
  isSubgroupProject : Bool
  subgroupFullPath : String
deriving Repr, DecidableEq

/-- models.go Subgroup: the projection of remote subgroup data returned to
MCP clients. -/
structure Subgroup where
  id : Int
  name : String
  path : String
  fullPath : String
  webURL : String
  parentID : Int
deriving Repr, DecidableEq

/-- gitlab.ListOptions: page defaults to the Go zero value 0, which the
remote API treats as the first page. -/
structure ListOptions where
  page : Nat
  perPage : Nat
deriving Repr, DecidableEq

/-- gitlab.ListGroupProjectsOptions (the fields the service sets). -/
structure ListGroupProjectsOptions where
  listOptions : ListOptions
  archived : Option Bool
deriving Repr, DecidableEq

/-- The options value built in ListGroupProjectsAll: PerPage 100, and the
Archived pointer set to true only when the archived flag is true. -/
def groupProjectsOpts (archived : Bool) : ListGroupProjectsOptions :=
  { listOptions := { page := 0, perPage := 100 },
    archived := if archived then some true else none }

/-- The GitLab API client operations used by the group service, as pure
oracles.  Each call returns one response page (or an error); the page
carries the next-page indicator, which the group service never reads. -/
structure GroupsClient where
  getGroup : String → Except String APIGroup
  listGroupProjects : Int → ListGroupProjectsOptions → Except String (Page APIProject)
  listDescendantGroups : Int → ListOptions → Except String (Page APISubgroup)
  listSubGroups : Int → ListOptions → Except String (Page APISubgroup)

/-- The projection applied to a direct project of the resolved group. -/
def directProject (groupPath : String) (p : APIProject) : Project :=
  { id := p.id
    name := p.name
    path := p.path
    pathWithNamespace := p.pathWithNamespace
    webURL := p.webURL
    cloneURL := p.httpURLToRepo
    groupPath := groupPath
    isSubgroupProject := false
    subgroupFullPath := "" }

/-- The projection applied to a project of a descendant subgroup. -/
def subgroupProject (sg : APISubgroup) (p : APIProject) : Project :=
  { id := p.id
    name := p.name
    path := p.path
    pathWithNamespace := p.pathWithNamespace
    webURL := p.webURL
    cloneURL := p.httpURLToRepo
    groupPath := sg.path
    isSubgroupProject := true
    subgroupFullPath := sg.fullPath }

/-- service.go ListGroupProjectsAll: resolve the group, fetch one page of
its direct projects (PerPage 100, archived filter only when the flag is
set), fetch one page of descendant groups, then for each descendant fetch
one page of its projects with the same options, skipping a descendant
whose listing fails (the failure is only logged). -/
def ListGroupProjectsAll (c : GroupsClient) (groupIDOrPath : String)
    (archived : Bool) : Except String (List Project) :=
  match c.getGroup groupIDOrPath with
  | .error e => .error ("get group: " ++ e)
  | .ok group =>
    let opts := groupProjectsOpts archived
    match c.listGroupProjects group.id opts with
    | .error e => .error ("list group projects: " ++ e)
    | .ok directPage =>
      let allProjects := directPage.items.map (directProject group.path)
      match c.listDescendantGroups group.id { page := 0, perPage := 100 } with
      | .error e => .error ("list descendant groups: " ++ e)
      | .ok descPage =>
        .ok (descPage.items.foldl (fun acc sg =>
          match c.listGroupProjects sg.id opts with
          | .error _ => acc
          | .ok subPage => acc ++ subPage.items.map (subgroupProject sg)) allProjects)

/-- service.go ListGroupProjects: resolve the group and fetch one page of
its direct projects (PerPage 100, no archived filter). -/
def ListGroupProjects (c : GroupsClient) (groupIDOrPath : String) :
    Except String (List Project) :=
  match c.getGroup groupIDOrPath with
  | .error e => .error ("get group: " ++ e)
  | .ok group =>
    match c.listGroupProjects group.id
        { listOptions := { page := 0, perPage := 100 }, archived := none } with
    | .error e => .error ("list group projects: " ++ e)
    | .ok page => .ok (page.items.map (directProject group.path))

/-- service.go ListGroupSubgroups: resolve the group and fetch one page of
its immediate subgroups (PerPage 100). -/
def ListGroupSubgroups (c : GroupsClient) (groupIDOrPath : String) :
    Except String (List Subgroup) :=
  match c.getGroup groupIDOrPath with
  | .error e => .error ("get group: " ++ e)
  | .ok group =>
    match c.listSubGroups group.id { page := 0, perPage := 100 } with
    | .error e => .error ("list subgroups: " ++ e)
    | .ok page =>
      .ok (page.items.map (fun sg =>
        { id := sg.id
          name := sg.name
          path := sg.path
          fullPath := sg.fullPath
          webURL := sg.webURL
          parentID := group.id }))

/-! ## Pipeline filter and bulk deleter (the internal/gitlab pipeline service) -/

/-- Remote pipeline data as reported by the GitLab API (the fields the
service reads).  Timestamps are optional instants in Unix nanoseconds. -/
structure APIPipeline where
  id : Int
  iid : Int
  projectID : Int
  status : String
  source : String
  ref : String
  sha : String
  webURL : String
  createdAt : Option Int
  updatedAt : Option Int
deriving Repr, DecidableEq

/-- models.go PipelineSummary.  The age in fractional years is a float64
in Go, modelled here by an exact rational. -/
structure PipelineSummary where
  id : Int
  iid : Int
  projectID : Int
  status : String
  source : String
  ref : String
  sha : String
  webURL : String
  createdAt : Option Int
  updatedAt : Option Int
  ageDays : Int
  ageYears : ℚ
deriving Repr, DecidableEq

/-- models.go PipelineDeletionError. -/
structure PipelineDeletionError where
  pipelineID : Int
  error : String
deriving Repr, DecidableEq

/-- models.go PipelineDeletionSummary. -/
structure PipelineDeletionSummary where
  totalCandidates : Nat
  deletedIDs : List Int
  failed : List PipelineDeletionError
deriving Repr, DecidableEq

/-- Go int(x) conversion of a float truncates toward zero. -/
def intOfRat (q : ℚ) : Int := if 0 ≤ q then ⌊q⌋ else ⌈q⌉

/-- Semantics of Go math.Round: round half away from zero, result still a
float (here a rational with integral value). -/
def mathRound (q : ℚ) : ℚ :=
  if 0 ≤ q then ((⌊q + 1/2⌋ : Int) : ℚ) else (-(⌊-q + 1/2⌋ : Int) : ℚ)

/-- Nanoseconds per hour: Go durations are integer nanosecond counts and
duration.Hours() divides by this. -/
def nanosPerHour : Int := 3600000000000

/-- pipelineAge from the pipeline service: with no creation instant, or a
negative elapsed duration, both ages are the sentinel -1; otherwise the
whole-day count truncated toward zero and the fractional years rounded to
two decimals (365.25 days per year). -/
def pipelineAge (now : Int) (createdAt : Option Int) : Int × ℚ :=
  match createdAt with
  | none => (-1, -1)
  | some t =>
    let duration : Int := now - t
    if duration < 0 then (-1, -1)
    else
      let hours : ℚ := (duration : ℚ) / (nanosPerHour : ℚ)
      (intOfRat (hours / 24), mathRound (hours / 24 / (1461/4) * 100) / 100)

/-- Builds the PipelineSummary record appended by the ListOldPipelines
page loop, with the createdAt pointer already normalised. -/
def mkSummary (now : Int) (p : APIPipeline) (createdAtPtr : Option Int) :
    PipelineSummary :=
  { id := p.id
    iid := p.iid
    projectID := p.projectID
    status := p.status
    source := p.source
    ref := p.ref
    sha := p.sha
    webURL := p.webURL
    createdAt := createdAtPtr
    updatedAt := p.updatedAt
    ageDays := (pipelineAge now createdAtPtr).1
    ageYears := (pipelineAge now createdAtPtr).2 }

/-- The per-pipeline body of the ListOldPipelines page loop: when the
creation instant is present it must be strictly before the cutoff or the
pipeline is skipped; when it is absent the pipeline is kept with no
creation instant.  UTC normalisation preserves the instant. -/
def summarizePipeline (now cutoff : Int) (p : APIPipeline) :
    Option PipelineSummary :=
  match p.createdAt with
  | some created =>
    if ¬ created < cutoff then none
    else some (mkSummary now p (some created))
  | none => some (mkSummary now p none)

/-- Processing of one fetched page: nil pipeline pointers are skipped,
then each pipeline goes through the loop body above. -/
def pageSummaries (now cutoff : Int) (items : List (Option APIPipeline)) :
    List PipelineSummary :=
  items.filterMap (fun op => op.bind (summarizePipeline now cutoff))

/-- The ListOldPipelines fetch loop over the sequence of responses the
remote produces.  Each iteration issues one fetch; a fetch error aborts
with a wrapped error; otherwise the page is processed and the loop stops
exactly when the response carries no next-page indicator.  A well-formed
remote trace ends with such a response, so the empty-trace case is never
reached from a complete execution. -/
def listOldPipelinesLoop (now cutoff : Int) :
    List (Except String (Page (Option APIPipeline))) → List PipelineSummary →
      Except String (List PipelineSummary)
  | [], results => .ok results
  | resp :: rest, results =>
    match resp with
    | .error e => .error ("list project pipelines: " ++ e)
    | .ok page =>
      let results := results ++ pageSummaries now cutoff page.items
      match page.nextPage with
      | none => .ok results
      | some _ => listOldPipelinesLoop now cutoff rest results

/-- ListOldPipelines from the pipeline service: normalise the cutoff to
UTC (instant unchanged) and run the paginated fetch loop starting from an
empty accumulator.  The responses list is the trace of replies produced by
the remote for the successive fetches (page 1, then each reported next
page) with the server-side created-before filter and ascending
created-at ordering requested but not trusted. -/
def ListOldPipelines (now before : Int)
    (responses : List (Except String (Page (Option APIPipeline)))) :
    Except String (List PipelineSummary) :=
  let cutoff := before
  listOldPipelinesLoop now cutoff responses []

/-- The DeleteOldPipelines loop: one delete call per candidate, in order.
The delete oracle maps the call index and pipeline id to none on success
or the error message on failure.  Accumulates the deleted ids, the failure
records, and (as the observable effect trace) the ids for which a delete
call was issued. -/
def deleteOldLoop (del : Nat → Int → Option String) :
    Nat → List PipelineSummary → List Int → List PipelineDeletionError →
      List Int → List Int × List PipelineDeletionError × List Int
  | _, [], deleted, failed, calls => (deleted, failed, calls)
  | k, p :: rest, deleted, failed, calls =>
    match del k p.id with
    | some e =>
      deleteOldLoop del (k + 1) rest deleted (failed ++ [⟨p.id, e⟩])
        (calls ++ [p.id])
    | none =>
      deleteOldLoop del (k + 1) rest (deleted ++ [p.id]) failed
        (calls ++ [p.id])

/-- DeleteOldPipelines from the pipeline service: obtain the candidates
from ListOldPipelines (propagating its error unchanged, before any delete
call), return immediately on an empty candidate set, otherwise run the
sequential delete loop.  The second component is the trace of delete calls
issued (instrumentation; the Go function returns only the summary). -/
def DeleteOldPipelines (now before : Int)
    (responses : List (Except String (Page (Option APIPipeline))))
    (del : Nat → Int → Option String) :
    Except String PipelineDeletionSummary × List Int :=
  match ListOldPipelines now before responses with
  | .error e => (.error e, [])
  | .ok pipelines =>
    if pipelines.length = 0 then
      (.ok { totalCandidates := pipelines.length, deletedIDs := []
             failed := [] }, [])
    else
      let r := deleteOldLoop del 0 pipelines [] [] []
      (.ok { totalCandidates := pipelines.length, deletedIDs := r.1
             failed := r.2.1 }, r.2.2)

/-! ## Specification-side definitions

These follow the wording of the specification, for comparison with the
definitions translated from the source. -/

/-- Modelled from the spec (Paginator contract): starting at page 1, fetch
page after page following the reported next page until a fetch reports no
next page, concatenating the items in page order.  Propagates the first
fetch error.  The fuel argument bounds the number of fetches so the
definition is total; the concrete comparisons below use enough fuel. -/
def specPaginate {α : Type} (fetch : Nat → Except String (Page α)) :
    Nat → Nat → Except String (List α)
  | 0, _ => .ok []
  | fuel + 1, pageNum =>
    match fetch pageNum with
    | .error e => .error e
    | .ok pg =>
      match pg.nextPage with
      | none => .ok pg.items
      | some nxt =>
        match specPaginate fetch fuel nxt with
        | .error e => .error e
        | .ok more => .ok (pg.items ++ more)

/-- Spec-side characterisation of the bulk deleter: the identifiers of the
candidates whose delete call succeeds, in candidate order. -/
def deletedIdsSpec (del : Nat → Int → Option String) :
    Nat → List PipelineSummary → List Int
  | _, [] => []
  | k, p :: rest =>
    match del k p.id with
    | none => p.id :: deletedIdsSpec del (k + 1) rest
    | some _ => deletedIdsSpec del (k + 1) rest

/-- Spec-side characterisation of the bulk deleter: one (identifier,
error message) record per failing delete call, in candidate order. -/
def failedSpec (del : Nat → Int → Option String) :
    Nat → List PipelineSummary → List PipelineDeletionError
  | _, [] => []
  | k, p :: rest =>
    match del k p.id with
    | none => failedSpec del (k + 1) rest
    | some e => { pipelineID := p.id, error := e } :: failedSpec del (k + 1) rest

/-- The spec formula for the fractional-year age: round to two decimal
places (for the non-negative durations at stake, half rounds up). -/
def roundTo2 (q : ℚ) : ℚ := ((⌊q * 100 + 1/2⌋ : Int) : ℚ) / 100

/-- Remote-side semantics of the archived filter (the GitLab API is an
external collaborator): with no filter every project is returned; with a
filter only the projects whose archived status matches it. -/
def applyArchivedFilter (filt : Option Bool) (ps : List APIProject) :
    List APIProject :=
  match filt with
  | none => ps
  | some b => ps.filter (fun p => p.archived == b)

/-- A remote that resolves every identifier to the given group, lists the
ground-truth projects of each numeric id through the archived filter, and
reports the given descendant subgroups, each listing on a single page. -/
def filterClient (grp : APIGroup) (ground : Int → List APIProject)
    (descs : List APISubgroup) : GroupsClient :=
  { getGroup := fun _ => .ok grp
    listGroupProjects := fun gid opts =>
      .ok { items := applyArchivedFilter opts.archived (ground gid)
            nextPage := none }
    listDescendantGroups := fun _ _ => .ok { items := descs, nextPage := none }
    listSubGroups := fun _ _ => .ok { items := [], nextPage := none } }

/-! ## Concrete fixtures for counterexamples and witnesses -/

def apiProjectA : APIProject :=
  { id := 1, name := "alpha", path := "alpha", pathWithNamespace := "g/alpha"
    webURL := "https://x/alpha", httpURLToRepo := "https://x/alpha.git"
    archived := false }

def apiProjectB : APIProject :=
  { id := 2, name := "beta", path := "beta", pathWithNamespace := "g/s/beta"
    webURL := "https://x/beta", httpURLToRepo := "https://x/beta.git"
    archived := false }

def cexGroup : APIGroup := { id := 10, path := "g" }

/-- A remote whose direct-project listing has two pages: page 1 holds one
project and reports page 2 as its successor, page 2 holds another project
and reports no next page.  A page value of 0 (the Go zero value) is the
first page. -/
def twoPageClient : GroupsClient :=
  { getGroup := fun _ => .ok cexGroup
    listGroupProjects := fun _ opts =>
      if opts.listOptions.page ≤ 1 then
        .ok { items := [apiProjectA], nextPage := some 2 }
      else
        .ok { items := [apiProjectB], nextPage := none }
    listDescendantGroups := fun _ _ => .ok { items := [], nextPage := none }
    listSubGroups := fun _ _ => .ok { items := [], nextPage := none } }

def sgBad : APISubgroup :=
  { id := 21, name := "locked", path := "locked", fullPath := "g/locked"
    webURL := "https://x/locked" }

def sgGood : APISubgroup :=
  { id := 22, name := "s", path := "s", fullPath := "g/s"
    webURL := "https://x/s" }

/-- A remote with two descendant subgroups, the first of which fails its
project listing. -/
def mixedClient : GroupsClient :=
  { getGroup := fun _ => .ok cexGroup
    listGroupProjects := fun gid _ =>
      if gid = 10 then .ok { items := [apiProjectA], nextPage := none }
      else if gid = 21 then .error "403 forbidden"
      else .ok { items := [apiProjectB], nextPage := none }
    listDescendantGroups := fun _ _ =>
      .ok { items := [sgBad, sgGood], nextPage := none }
    listSubGroups := fun _ _ => .ok { items := [], nextPage := none } }

/-- A pipeline whose creation timestamp is absent. -/
def pipeNoCreated : APIPipeline :=
  { id := 7, iid := 1, projectID := 3, status := "success", source := "push"
    ref := "main", sha := "abc", webURL := "https://x/p/7"
    createdAt := none, updatedAt := none }

/-- A pipeline created at instant 0. -/
def pipeAtZero : APIPipeline :=
  { id := 8, iid := 2, projectID := 3, status := "failed", source := "web"
    ref := "main", sha := "def", webURL := "https://x/p/8"
    createdAt := some 0, updatedAt := some 0 }

/-! ## Helper lemmas -/

/-- The subgroup accumulation loop is the initial list followed by the
per-subgroup contributions in subgroup order, a failing listing
contributing nothing. -/
lemma foldl_subgroup_append (c : GroupsClient)
    (opts : ListGroupProjectsOptions) (l : List APISubgroup)
    (init : List Project) :
    l.foldl (fun acc sg =>
      match c.listGroupProjects sg.id opts with
      | .error _ => acc
      | .ok subPage => acc ++ subPage.items.map (subgroupProject sg)) init =
    init ++ l.flatMap (fun sg =>
      match c.listGroupProjects sg.id opts with
      | .error _ => []
      | .ok subPage => subPage.items.map (subgroupProject sg)) := by
  induction l generalizing init with
  | nil => simp
  | cons sg rest ih =>
    simp only [List.foldl_cons, List.flatMap_cons]
    cases h : c.listGroupProjects sg.id opts with
    | error e => simp only [h, ih, List.nil_append, List.append_assoc]
    | ok subPage => simp only [h, ih, List.append_assoc]

/-- Characterisation of ListGroupProjectsAll when the three prefix calls
succeed. -/
lemma listGroupProjectsAll_ok (c : GroupsClient) (g : String)
    (archived : Bool) (grp : APIGroup) (directPage : Page APIProject)
    (descPage : Page APISubgroup)
    (hg : c.getGroup g = .ok grp)
    (hd : c.listGroupProjects grp.id (groupProjectsOpts archived) = .ok directPage)
    (hs : c.listDescendantGroups grp.id { page := 0, perPage := 100 } = .ok descPage) :
    ListGroupProjectsAll c g archived =
      .ok (directPage.items.map (directProject grp.path) ++
        descPage.items.flatMap (fun sg =>
          match c.listGroupProjects sg.id (groupProjectsOpts archived) with
          | .error _ => []
          | .ok subPage => subPage.items.map (subgroupProject sg))) := by
  unfold ListGroupProjectsAll
  rw [hg]
  simp only [hd, hs, foldl_subgroup_append]

/-- Root resolution failure aborts ListGroupProjectsAll. -/
lemma listGroupProjectsAll_getGroup_err (c : GroupsClient) (g : String)
    (archived : Bool) (e : String) (hg : c.getGroup g = .error e) :
    ListGroupProjectsAll c g archived = .error ("get group: " ++ e) := by
  unfold ListGroupProjectsAll
  rw [hg]

/-- Direct-project listing failure aborts ListGroupProjectsAll. -/
lemma listGroupProjectsAll_direct_err (c : GroupsClient) (g : String)
    (archived : Bool) (grp : APIGroup) (e : String)
    (hg : c.getGroup g = .ok grp)
    (hd : c.listGroupProjects grp.id (groupProjectsOpts archived) = .error e) :
    ListGroupProjectsAll c g archived = .error ("list group projects: " ++ e) := by
  unfold ListGroupProjectsAll
  rw [hg]
  simp only [hd]

/-- Descendant-subgroup listing failure aborts ListGroupProjectsAll. -/
lemma listGroupProjectsAll_desc_err (c : GroupsClient) (g : String)
    (archived : Bool) (grp : APIGroup) (directPage : Page APIProject)
    (e : String)
    (hg : c.getGroup g = .ok grp)
    (hd : c.listGroupProjects grp.id (groupProjectsOpts archived) = .ok directPage)
    (hs : c.listDescendantGroups grp.id { page := 0, perPage := 100 } = .error e) :
    ListGroupProjectsAll c g archived = .error ("list descendant groups: " ++ e) := by
  unfold ListGroupProjectsAll
  rw [hg]
  simp only [hd, hs]

/-- The pipeline fetch loop on a page with no next-page indicator stops
after that page, whatever responses would follow. -/
lemma listOldPipelinesLoop_stop (now cutoff : Int)
    (page : Page (Option APIPipeline))
    (rest : List (Except String (Page (Option APIPipeline))))
    (acc : List PipelineSummary) (h : page.nextPage = none) :
    listOldPipelinesLoop now cutoff (.ok page :: rest) acc =
      .ok (acc ++ pageSummaries now cutoff page.items) := by
  simp only [listOldPipelinesLoop, h]

/-- The pipeline fetch loop on a page with a next-page indicator
continues with the remaining responses, whatever the page items were. -/
lemma listOldPipelinesLoop_continue (now cutoff : Int)
    (page : Page (Option APIPipeline)) (n : Nat)
    (rest : List (Except String (Page (Option APIPipeline))))
    (acc : List PipelineSummary) (h : page.nextPage = some n) :
    listOldPipelinesLoop now cutoff (.ok page :: rest) acc =
      listOldPipelinesLoop now cutoff rest
        (acc ++ pageSummaries now cutoff page.items) := by
  simp only [listOldPipelinesLoop, h]

/-- Closed form of the delete loop: each accumulator receives exactly the
spec-side sequence, and one delete call is issued per candidate, in
order. -/
lemma deleteOldLoop_eq_spec (del : Nat → Int → Option String)
    (ps : List PipelineSummary) :
    ∀ (k : Nat) (deleted : List Int) (failed : List PipelineDeletionError)
      (calls : List Int),
      deleteOldLoop del k ps deleted failed calls =
        (deleted ++ deletedIdsSpec del k ps, failed ++ failedSpec del k ps,
          calls ++ ps.map (fun p => p.id)) := by
  induction ps with
  | nil =>
    intro k deleted failed calls
    simp [deleteOldLoop, deletedIdsSpec, failedSpec]
  | cons p rest ih =>
    intro k deleted failed calls
    cases h : del k p.id with
    | none =>
      simp only [deleteOldLoop, deletedIdsSpec, failedSpec, h, ih,
        List.map_cons, List.append_assoc, List.singleton_append,
        List.cons_append, List.nil_append]
    | some e =>
      simp only [deleteOldLoop, deletedIdsSpec, failedSpec, h, ih,
        List.map_cons, List.append_assoc, List.singleton_append,
        List.cons_append, List.nil_append]

/-- Every candidate lands in exactly one accumulator, so the lengths add
up to the candidate count. -/
lemma deletedIdsSpec_length_add (del : Nat → Int → Option String) :
    ∀ (k : Nat) (ps : List PipelineSummary),
      (deletedIdsSpec del k ps).length + (failedSpec del k ps).length =
        ps.length := by
  intro k ps
  induction ps generalizing k with
  | nil => simp [deletedIdsSpec, failedSpec]
  | cons p rest ih =>
    cases h : del k p.id with
    | none =>
      simp only [deletedIdsSpec, failedSpec, h, List.length_cons]
      have h2 := ih (k + 1)
      omega
    | some e =>
      simp only [deletedIdsSpec, failedSpec, h, List.length_cons]
      have h2 := ih (k + 1)
      omega

/-- The candidate identifiers are a permutation of the deleted ids
followed by the failed ids. -/
lemma deleteSpec_perm (del : Nat → Int → Option String) :
    ∀ (k : Nat) (ps : List PipelineSummary),
      (ps.map (fun p => p.id)).Perm
        (deletedIdsSpec del k ps ++
          (failedSpec del k ps).map (fun f => f.pipelineID)) := by
  intro k ps
  induction ps generalizing k with
  | nil => simp [deletedIdsSpec, failedSpec]
  | cons p rest ih =>
    cases h : del k p.id with
    | none =>
      simp only [deletedIdsSpec, failedSpec, h, List.map_cons, List.cons_append]
      exact (ih (k + 1)).cons p.id
    | some e =>
      simp only [deletedIdsSpec, failedSpec, h, List.map_cons]
      exact ((ih (k + 1)).cons p.id).trans List.perm_middle.symm

/-- Under distinct candidate identifiers, each candidate identifier lands
in exactly one of the two outcome sequences. -/
lemma deleteSpec_exactly_one (del : Nat → Int → Option String)
    (ps : List PipelineSummary)
    (hnd : (ps.map (fun p => p.id)).Nodup) (i : Int)
    (hi : i ∈ ps.map (fun p => p.id)) :
    (i ∈ deletedIdsSpec del 0 ps ∧
      i ∉ (failedSpec del 0 ps).map (fun f => f.pipelineID)) ∨
    (i ∉ deletedIdsSpec del 0 ps ∧
      i ∈ (failedSpec del 0 ps).map (fun f => f.pipelineID)) := by
  have hperm := deleteSpec_perm del 0 ps
  have hcount : (ps.map (fun p => p.id)).count i = 1 :=
    List.count_eq_one_of_mem hnd hi
  have hsum : (deletedIdsSpec del 0 ps).count i +
      ((failedSpec del 0 ps).map (fun f => f.pipelineID)).count i = 1 := by
    rw [← List.count_append, ← hperm.count_eq i, hcount]
  rcases Nat.lt_or_ge 0 ((deletedIdsSpec del 0 ps).count i) with hA | hA
  · left
    refine ⟨List.count_pos_iff.mp hA, List.count_eq_zero.mp (by omega)⟩
  · right
    refine ⟨List.count_eq_zero.mp (by omega), List.count_pos_iff.mp (by omega)⟩

/-- Go int(x) truncation agrees with the floor on non-negative values. -/
lemma intOfRat_nonneg (q : ℚ) (h : 0 ≤ q) : intOfRat q = ⌊q⌋ := if_pos h

/-- On non-negative values, scaling by 100, rounding half away from zero
and dividing back is exactly rounding to two decimal places. -/
lemma mathRound_div_eq_roundTo2 (x : ℚ) (h : 0 ≤ x) :
    mathRound (x * 100) / 100 = roundTo2 x := by
  unfold mathRound roundTo2
  rw [if_pos (mul_nonneg h (by norm_num))]

/-- Rounding a non-negative value to two decimals is non-negative. -/
lemma roundTo2_nonneg (x : ℚ) (h : 0 ≤ x) : 0 ≤ roundTo2 x := by
  unfold roundTo2
  apply div_nonneg _ (by norm_num)
  have h100 : (0 : ℚ) ≤ x * 100 + 1/2 := by
    have := mul_nonneg h (show (0:ℚ) ≤ 100 by norm_num)
    linarith
  exact_mod_cast Int.floor_nonneg.mpr h100

/-! ## Claims -/

/-- C1 counterexample: the direct-project listing of a group whose remote
holds two pages returns only the first page of items, not the
concatenation of the items of all pages fetched until the fetch reports no
next page (which would hold both projects). -/
theorem groupPagination_first_page_only_cex :
    ListGroupProjects twoPageClient "g" = .ok [directProject "g" apiProjectA] ∧
    specPaginate (fun n => twoPageClient.listGroupProjects cexGroup.id
      { listOptions := { page := n, perPage := 100 }, archived := none }) 2 1 =
        .ok [apiProjectA, apiProjectB] ∧
    ¬ [directProject "g" apiProjectA] =
        [apiProjectA, apiProjectB].map (directProject "g") := by
  refine ⟨rfl, rfl, by decide⟩

/-- C1 amended: each group-listing operation issues a single fetch of the
first results page (the page field left at the Go zero value, page size
100) per listing and returns exactly the items of that page, in page
order; it never continues to further pages, whatever next-page indicator
the response reports. -/
theorem groupListings_single_page (c : GroupsClient) (g : String)
    (grp : APIGroup) (hg : c.getGroup g = .ok grp) :
    (∀ pg : Page APIProject,
      c.listGroupProjects grp.id
        { listOptions := { page := 0, perPage := 100 }, archived := none } = .ok pg →
      ListGroupProjects c g = .ok (pg.items.map (directProject grp.path))) ∧
    (∀ pg : Page APISubgroup,
      c.listSubGroups grp.id { page := 0, perPage := 100 } = .ok pg →
      ListGroupSubgroups c g = .ok (pg.items.map (fun sg =>
        { id := sg.id, name := sg.name, path := sg.path
          fullPath := sg.fullPath, webURL := sg.webURL
          parentID := grp.id }))) ∧
    (∀ (archived : Bool) (pgd : Page APIProject) (pgs : Page APISubgroup),
      c.listGroupProjects grp.id (groupProjectsOpts archived) = .ok pgd →
      c.listDescendantGroups grp.id { page := 0, perPage := 100 } = .ok pgs →
      ListGroupProjectsAll c g archived =
        .ok (pgd.items.map (directProject grp.path) ++
          pgs.items.flatMap (fun sg =>
            match c.listGroupProjects sg.id (groupProjectsOpts archived) with
            | .error _ => []
            | .ok subPage => subPage.items.map (subgroupProject sg)))) := by
  refine ⟨?_, ?_, ?_⟩
  · intro pg hpg
    unfold ListGroupProjects
    rw [hg]
    simp only [hpg]
  · intro pg hpg
    unfold ListGroupSubgroups
    rw [hg]
    simp only [hpg]
  · intro archived pgd pgs hd hs
    exact listGroupProjectsAll_ok c g archived grp pgd pgs hg hd hs

/-- C1 amended witness: on the two-page remote the single-page behavior
is observable concretely. -/
theorem groupListings_single_page_witness :
    ListGroupProjects twoPageClient "g" =
      .ok ((Page.items { items := [apiProjectA], nextPage := some 2 }).map
        (directProject cexGroup.path)) :=
  (groupListings_single_page twoPageClient "g" cexGroup rfl).1
    { items := [apiProjectA], nextPage := some 2 } rfl

/-- C8: the archived filter is sent if and only if the archivedOnly flag
is true; against a remote implementing the filter semantics, a false flag
returns every project (archived and active alike, a filter-down and not a
toggle) while a true flag returns only the archived ones, in both the
direct and the subgroup listings. -/
theorem archivedFilter_applied_iff_flag (grp : APIGroup)
    (ground : Int → List APIProject) (descs : List APISubgroup) (g : String) :
    (groupProjectsOpts true).archived = some true ∧
    (groupProjectsOpts false).archived = none ∧
    ListGroupProjectsAll (filterClient grp ground descs) g false =
      .ok ((ground grp.id).map (directProject grp.path) ++
        descs.flatMap (fun sg => (ground sg.id).map (subgroupProject sg))) ∧
    ListGroupProjectsAll (filterClient grp ground descs) g true =
      .ok (((ground grp.id).filter (fun p => p.archived == true)).map
          (directProject grp.path) ++
        descs.flatMap (fun sg =>
          ((ground sg.id).filter (fun p => p.archived == true)).map
            (subgroupProject sg))) := by
  refine ⟨rfl, rfl, ?_, ?_⟩
  · rw [listGroupProjectsAll_ok (filterClient grp ground descs) g false grp
      { items := applyArchivedFilter (groupProjectsOpts false).archived (ground grp.id)
        nextPage := none }
      { items := descs, nextPage := none } rfl rfl rfl]
    simp [filterClient, applyArchivedFilter, groupProjectsOpts]
  · rw [listGroupProjectsAll_ok (filterClient grp ground descs) g true grp
      { items := applyArchivedFilter (groupProjectsOpts true).archived (ground grp.id)
        nextPage := none }
      { items := descs, nextPage := none } rfl rfl rfl]
    simp [filterClient, applyArchivedFilter, groupProjectsOpts]

/-- C9: a failure listing one descendant subgroup is skipped (contributing
nothing) without aborting ListGroupProjectsAll, whose successful result is
the direct projects followed by the projects of each accessible subgroup
in the order the subgroups were returned; by contrast a failure resolving
the group, listing the direct projects, or listing the descendants aborts
the whole operation with a wrapped error. -/
theorem listAllProjects_tolerates_subgroup_failure (c : GroupsClient)
    (g : String) (archived : Bool) :
    (∀ e, c.getGroup g = .error e →
      ListGroupProjectsAll c g archived = .error ("get group: " ++ e)) ∧
    (∀ grp e, c.getGroup g = .ok grp →
      c.listGroupProjects grp.id (groupProjectsOpts archived) = .error e →
      ListGroupProjectsAll c g archived = .error ("list group projects: " ++ e)) ∧
    (∀ grp dp e, c.getGroup g = .ok grp →
      c.listGroupProjects grp.id (groupProjectsOpts archived) = .ok dp →
      c.listDescendantGroups grp.id { page := 0, perPage := 100 } = .error e →
      ListGroupProjectsAll c g archived = .error ("list descendant groups: " ++ e)) ∧
    (∀ grp dp ds, c.getGroup g = .ok grp →
      c.listGroupProjects grp.id (groupProjectsOpts archived) = .ok dp →
      c.listDescendantGroups grp.id { page := 0, perPage := 100 } = .ok ds →
      ListGroupProjectsAll c g archived =
        .ok (dp.items.map (directProject grp.path) ++
          ds.items.flatMap (fun sg =>
            match c.listGroupProjects sg.id (groupProjectsOpts archived) with
            | .error _ => []
            | .ok subPage => subPage.items.map (subgroupProject sg)))) := by
  refine ⟨?_, ?_, ?_, ?_⟩
  · intro e he
    exact listGroupProjectsAll_getGroup_err c g archived e he
  · intro grp e hg hd
    exact listGroupProjectsAll_direct_err c g archived grp e hg hd
  · intro grp dp e hg hd hs
    exact listGroupProjectsAll_desc_err c g archived grp dp e hg hd hs
  · intro grp dp ds hg hd hs
    exact listGroupProjectsAll_ok c g archived grp dp ds hg hd hs

/-- C9 witness: on a remote with two descendant subgroups whose first
project listing fails, the operation still succeeds with the direct
project followed by the accessible subgroup project. -/
theorem listAllProjects_tolerates_subgroup_failure_witness :
    ListGroupProjectsAll mixedClient "g" false =
      .ok [directProject "g" apiProjectA, subgroupProject sgGood apiProjectB] := by
  have h := (listAllProjects_tolerates_subgroup_failure mixedClient "g" false).2.2.2
    cexGroup { items := [apiProjectA], nextPage := none }
    { items := [sgBad, sgGood], nextPage := none } rfl rfl rfl
  rw [h]
  rfl

/-- C2 counterexample: a pipeline with no creation timestamp is not
excluded from the ListOldPipelines result: on a trace of one page holding
only such a pipeline, the result contains its summary, with no creation
instant and sentinel ages. -/
theorem absent_timestamp_not_excluded_cex :
    ListOldPipelines 0 0 [.ok { items := [some pipeNoCreated], nextPage := none }] =
      .ok [mkSummary 0 pipeNoCreated none] ∧
    (mkSummary 0 pipeNoCreated none).createdAt = none ∧
    (mkSummary 0 pipeNoCreated none).ageDays = -1 ∧
    (mkSummary 0 pipeNoCreated none).ageYears = -1 :=
  ⟨rfl, rfl, rfl, rfl⟩

/-- C2 amended: a pipeline whose creation timestamp is absent bypasses
the cutoff check and is included in the result, with no creation instant
and both age fields the sentinel -1; its absence is not an error, the
operation still succeeding on a successful page that contains it. -/
theorem absent_timestamp_included_with_sentinel (now cutoff : Int)
    (p : APIPipeline) (h : p.createdAt = none) :
    summarizePipeline now cutoff p = some (mkSummary now p none) ∧
    (mkSummary now p none).createdAt = none ∧
    (mkSummary now p none).ageDays = -1 ∧
    (mkSummary now p none).ageYears = -1 ∧
    ∀ items : List (Option APIPipeline), some p ∈ items →
      ListOldPipelines now cutoff [.ok { items := items, nextPage := none }] =
        .ok (pageSummaries now cutoff items) ∧
      mkSummary now p none ∈ pageSummaries now cutoff items := by
  have hs : summarizePipeline now cutoff p = some (mkSummary now p none) := by
    unfold summarizePipeline
    rw [h]
  refine ⟨hs, rfl, rfl, rfl, ?_⟩
  intro items hmem
  constructor
  · unfold ListOldPipelines
    rw [listOldPipelinesLoop_stop now cutoff { items := items, nextPage := none }
      [] [] rfl]
    simp
  · exact List.mem_filterMap.mpr ⟨some p, hmem, by simp [hs]⟩

/-- C2 amended witness: the inclusion is observable on the concrete
timestamp-free pipeline. -/
theorem absent_timestamp_included_with_sentinel_witness :
    summarizePipeline 0 0 pipeNoCreated = some (mkSummary 0 pipeNoCreated none) ∧
    (mkSummary 0 pipeNoCreated none).createdAt = none ∧
    (mkSummary 0 pipeNoCreated none).ageDays = -1 ∧
    (mkSummary 0 pipeNoCreated none).ageYears = -1 ∧
    ∀ items : List (Option APIPipeline), some pipeNoCreated ∈ items →
      ListOldPipelines 0 0 [.ok { items := items, nextPage := none }] =
        .ok (pageSummaries 0 0 items) ∧
      mkSummary 0 pipeNoCreated none ∈ pageSummaries 0 0 items :=
  absent_timestamp_included_with_sentinel 0 0 pipeNoCreated rfl

/-- C3: with a creation timestamp present, the pipeline is kept by
ListOldPipelines exactly when its instant is strictly earlier than the
cutoff — equality with the cutoff excludes it — and this local check
applies to whatever the remote returned. -/
theorem present_timestamp_strictly_before_cutoff (now cutoff : Int)
    (p : APIPipeline) (t : Int) (h : p.createdAt = some t) :
    ((summarizePipeline now cutoff p).isSome ↔ t < cutoff) ∧
    (t = cutoff → summarizePipeline now cutoff p = none) ∧
    ListOldPipelines now cutoff [.ok { items := [some p], nextPage := none }] =
      .ok (if t < cutoff then [mkSummary now p (some t)] else []) := by
  have hs : summarizePipeline now cutoff p =
      if t < cutoff then some (mkSummary now p (some t)) else none := by
    unfold summarizePipeline
    rw [h]
    by_cases hc : t < cutoff
    · simp [hc]
    · simp [hc]
  refine ⟨?_, ?_, ?_⟩
  · rw [hs]
    by_cases hc : t < cutoff
    · simp [hc]
    · simp [hc]
  · intro heq
    rw [hs, if_neg (by omega)]
  · unfold ListOldPipelines
    rw [listOldPipelinesLoop_stop now cutoff { items := [some p], nextPage := none }
      [] [] rfl]
    by_cases hc : t < cutoff
    · simp [pageSummaries, hs, hc]
    · simp [pageSummaries, hs, hc]

/-- C3 witness: a pipeline created at instant 0 against cutoff 1 is kept,
concretely. -/
theorem present_timestamp_strictly_before_cutoff_witness :
    ((summarizePipeline 5 1 pipeAtZero).isSome ↔ (0 : Int) < 1) ∧
    ((0 : Int) = 1 → summarizePipeline 5 1 pipeAtZero = none) ∧
    ListOldPipelines 5 1 [.ok { items := [some pipeAtZero], nextPage := none }] =
      .ok (if (0 : Int) < 1 then [mkSummary 5 pipeAtZero (some 0)] else []) :=
  present_timestamp_strictly_before_cutoff 5 1 pipeAtZero 0 rfl

/-- C6: the pipeline pagination loop stops exactly when the fetched
response carries no next-page indicator, independently of the page
contents: a page with no indicator ends the loop whatever responses would
follow, and a page with an indicator continues to the next response even
when the page is empty. -/
theorem pipelinePagination_stops_iff_no_next (now cutoff : Int)
    (page : Page (Option APIPipeline))
    (rest : List (Except String (Page (Option APIPipeline))))
    (acc : List PipelineSummary) :
    (page.nextPage = none →
      listOldPipelinesLoop now cutoff (.ok page :: rest) acc =
        .ok (acc ++ pageSummaries now cutoff page.items)) ∧
    (∀ n, page.nextPage = some n →
      listOldPipelinesLoop now cutoff (.ok page :: rest) acc =
        listOldPipelinesLoop now cutoff rest
          (acc ++ pageSummaries now cutoff page.items)) :=
  ⟨fun h => listOldPipelinesLoop_stop now cutoff page rest acc h,
    fun _ h => listOldPipelinesLoop_continue now cutoff page _ rest acc h⟩

/-- C6 witness: a non-empty page with no next-page indicator stops the
loop even with responses pending, and an empty page with an indicator
continues. -/
theorem pipelinePagination_stops_iff_no_next_witness :
    listOldPipelinesLoop 0 1
        [.ok { items := [some pipeAtZero], nextPage := none },
          .ok { items := [some pipeNoCreated], nextPage := none }] [] =
      .ok ([] ++ pageSummaries 0 1 [some pipeAtZero]) ∧
    listOldPipelinesLoop 0 1
        [.ok { items := [], nextPage := some 2 },
          .ok { items := [some pipeAtZero], nextPage := none }] [] =
      listOldPipelinesLoop 0 1
        [.ok { items := [some pipeAtZero], nextPage := none }]
        ([] ++ pageSummaries 0 1 []) :=
  ⟨(pipelinePagination_stops_iff_no_next 0 1
      { items := [some pipeAtZero], nextPage := none }
      [.ok { items := [some pipeNoCreated], nextPage := none }] []).1 rfl,
    (pipelinePagination_stops_iff_no_next 0 1
      { items := [], nextPage := some 2 }
      [.ok { items := [some pipeAtZero], nextPage := none }] []).2 2 rfl⟩

/-- C7: with a creation instant present and a non-negative elapsed
duration, the age in days is the floor of the duration in hours divided
by 24 and the age in years is the duration in days divided by 365.25
rounded to two decimal places, both non-negative; with the instant absent
or the duration negative (future timestamp), both ages are the sentinel
-1. -/
theorem pipelineAge_formulas (now t : Int) :
    (0 ≤ now - t →
      pipelineAge now (some t) =
        (⌊((now - t : Int) : ℚ) / (nanosPerHour : ℚ) / 24⌋,
          roundTo2 (((now - t : Int) : ℚ) / (nanosPerHour : ℚ) / 24 / (1461/4))) ∧
      0 ≤ (pipelineAge now (some t)).1 ∧
      0 ≤ (pipelineAge now (some t)).2) ∧
    (now - t < 0 → pipelineAge now (some t) = (-1, -1)) ∧
    pipelineAge now none = (-1, -1) := by
  refine ⟨?_, ?_, rfl⟩
  · intro hd
    have hnotlt : ¬ now - t < 0 := not_lt.mpr hd
    have hhours : (0 : ℚ) ≤ ((now - t : Int) : ℚ) / (nanosPerHour : ℚ) := by
      apply div_nonneg
      · exact_mod_cast hd
      · norm_num [nanosPerHour]
    have hdays : (0 : ℚ) ≤ ((now - t : Int) : ℚ) / (nanosPerHour : ℚ) / 24 :=
      div_nonneg hhours (by norm_num)
    have hyears : (0 : ℚ) ≤
        ((now - t : Int) : ℚ) / (nanosPerHour : ℚ) / 24 / (1461/4) :=
      div_nonneg hdays (by norm_num)
    have heq : pipelineAge now (some t) =
        (⌊((now - t : Int) : ℚ) / (nanosPerHour : ℚ) / 24⌋,
          roundTo2 (((now - t : Int) : ℚ) / (nanosPerHour : ℚ) / 24 / (1461/4))) := by
      simp only [pipelineAge]
      rw [if_neg hnotlt, intOfRat_nonneg _ hdays, mathRound_div_eq_roundTo2 _ hyears]
    refine ⟨heq, ?_, ?_⟩
    · rw [heq]
      exact Int.floor_nonneg.mpr hdays
    · rw [heq]
      exact roundTo2_nonneg _ hyears
  · intro hd
    simp only [pipelineAge]
    rw [if_pos hd]

/-- C7 witness: a pipeline created exactly ten days ago (in nanoseconds)
has age 10 days and 0.03 years, both by the stated formulas. -/
theorem pipelineAge_formulas_witness :
    pipelineAge 864000000000000 (some 0) =
      (⌊((864000000000000 - 0 : Int) : ℚ) / (nanosPerHour : ℚ) / 24⌋,
        roundTo2 (((864000000000000 - 0 : Int) : ℚ) / (nanosPerHour : ℚ) / 24 / (1461/4))) ∧
    0 ≤ (pipelineAge 864000000000000 (some 0)).1 ∧
    0 ≤ (pipelineAge 864000000000000 (some 0)).2 :=
  (pipelineAge_formulas 864000000000000 0).1 (by decide)

/-- C4: whenever the deletion completes without an operation-level error,
the outcome record accounts for every candidate exactly once: the deleted
and failed lengths add up to the candidate count obtained from
ListOldPipelines, the candidate identifiers are a permutation of the
deleted identifiers together with the failed identifiers, and under
distinct identifiers each candidate identifier appears in exactly one of
the two sequences. -/
theorem deleteOldPipelines_accounts_for_all (now before : Int)
    (rs : List (Except String (Page (Option APIPipeline))))
    (del : Nat → Int → Option String) (cands : List PipelineSummary)
    (h : ListOldPipelines now before rs = .ok cands) :
    ∃ s, (DeleteOldPipelines now before rs del).1 = .ok s ∧
      s.totalCandidates = cands.length ∧
      s.deletedIDs.length + s.failed.length = s.totalCandidates ∧
      (cands.map (fun p => p.id)).Perm
        (s.deletedIDs ++ s.failed.map (fun f => f.pipelineID)) ∧
      ((cands.map (fun p => p.id)).Nodup →
        ∀ i ∈ cands.map (fun p => p.id),
          (i ∈ s.deletedIDs ∧ i ∉ s.failed.map (fun f => f.pipelineID)) ∨
          (i ∉ s.deletedIDs ∧ i ∈ s.failed.map (fun f => f.pipelineID))) := by
  simp only [DeleteOldPipelines, h]
  by_cases h0 : cands.length = 0
  · rw [if_pos h0]
    have hnil : cands = [] := List.length_eq_zero.mp h0
    subst hnil
    exact ⟨_, rfl, rfl, rfl, by simp, by simp⟩
  · rw [if_neg h0]
    simp only [deleteOldLoop_eq_spec del cands 0 [] [] [], List.nil_append]
    refine ⟨_, rfl, rfl, deletedIdsSpec_length_add del 0 cands,
      deleteSpec_perm del 0 cands, fun hnd i hi =>
        deleteSpec_exactly_one del cands hnd i hi⟩

/-- C4 witness: with two candidates, one failing and one succeeding, the
partition accounts for both. -/
theorem deleteOldPipelines_accounts_for_all_witness :
    ∃ s, (DeleteOldPipelines 5 1
        [.ok { items := [some pipeAtZero], nextPage := none }]
        (fun _ _ => some "denied")).1 = .ok s ∧
      s.totalCandidates = [mkSummary 5 pipeAtZero (some 0)].length ∧
      s.deletedIDs.length + s.failed.length = s.totalCandidates ∧
      ([mkSummary 5 pipeAtZero (some 0)].map (fun p => p.id)).Perm
        (s.deletedIDs ++ s.failed.map (fun f => f.pipelineID)) ∧
      (([mkSummary 5 pipeAtZero (some 0)].map (fun p => p.id)).Nodup →
        ∀ i ∈ [mkSummary 5 pipeAtZero (some 0)].map (fun p => p.id),
          (i ∈ s.deletedIDs ∧ i ∉ s.failed.map (fun f => f.pipelineID)) ∨
          (i ∉ s.deletedIDs ∧ i ∈ s.failed.map (fun f => f.pipelineID))) :=
  deleteOldPipelines_accounts_for_all 5 1
    [.ok { items := [some pipeAtZero], nextPage := none }]
    (fun _ _ => some "denied") [mkSummary 5 pipeAtZero (some 0)] rfl

/-- C5: one delete call is issued per candidate, sequentially in the
order the candidates were returned by the listing; the deleted ids are
the successful candidates in that order, the failed records pair each
failing candidate with its error message in that order, and no individual
failure aborts the batch or fails the operation. -/
theorem deleteOldPipelines_sequential_per_item (now before : Int)
    (rs : List (Except String (Page (Option APIPipeline))))
    (del : Nat → Int → Option String) (cands : List PipelineSummary)
    (h : ListOldPipelines now before rs = .ok cands) :
    (DeleteOldPipelines now before rs del).2 = cands.map (fun p => p.id) ∧
    ∃ s, (DeleteOldPipelines now before rs del).1 = .ok s ∧
      s.deletedIDs = deletedIdsSpec del 0 cands ∧
      s.failed = failedSpec del 0 cands := by
  simp only [DeleteOldPipelines, h]
  by_cases h0 : cands.length = 0
  · rw [if_pos h0]
    have hnil : cands = [] := List.length_eq_zero.mp h0
    subst hnil
    exact ⟨rfl, _, rfl, rfl, rfl⟩
  · rw [if_neg h0]
    simp only [deleteOldLoop_eq_spec del cands 0 [] [] [], List.nil_append]
    exact ⟨trivial, _, rfl, rfl, rfl⟩

/-- C5 witness: a single candidate whose delete call fails receives
exactly one call, an empty deleted list and one failure record carrying
its identifier, with no operation-level error. -/
theorem deleteOldPipelines_sequential_per_item_witness :
    (DeleteOldPipelines 7 1 [.ok { items := [some pipeAtZero], nextPage := none }]
        (fun _ _ => some "cannot delete")).2 =
      [mkSummary 7 pipeAtZero (some 0)].map (fun p => p.id) ∧
    ∃ s, (DeleteOldPipelines 7 1
        [.ok { items := [some pipeAtZero], nextPage := none }]
        (fun _ _ => some "cannot delete")).1 = .ok s ∧
      s.deletedIDs = deletedIdsSpec (fun _ _ => some "cannot delete") 0
        [mkSummary 7 pipeAtZero (some 0)] ∧
      s.failed = failedSpec (fun _ _ => some "cannot delete") 0
        [mkSummary 7 pipeAtZero (some 0)] :=
  deleteOldPipelines_sequential_per_item 7 1
    [.ok { items := [some pipeAtZero], nextPage := none }]
    (fun _ _ => some "cannot delete") [mkSummary 7 pipeAtZero (some 0)] rfl

/-- C10: DeleteOldPipelines returns an operation-level error exactly when
the candidate listing does, propagating that error with no delete call
issued; once the listing succeeds it always returns an outcome record
without an operation-level error, whatever the delete outcomes. -/
theorem deleteOldPipelines_error_iff_listing_error (now before : Int)
    (rs : List (Except String (Page (Option APIPipeline))))
    (del : Nat → Int → Option String) :
    (∀ e, ListOldPipelines now before rs = .error e →
      DeleteOldPipelines now before rs del = (.error e, [])) ∧
    (∀ cands, ListOldPipelines now before rs = .ok cands →
      ∃ s, (DeleteOldPipelines now before rs del).1 = .ok s) := by
  constructor
  · intro e he
    unfold DeleteOldPipelines
    rw [he]
  · intro cands hc
    simp only [DeleteOldPipelines, hc]
    by_cases h0 : cands.length = 0
    · rw [if_pos h0]
      exact ⟨_, rfl⟩
    · rw [if_neg h0]
      exact ⟨_, rfl⟩

/-- C10 witness: a failing listing propagates its wrapped error with no
delete call issued, and a successful listing yields an outcome record
even with an always-failing delete oracle. -/
theorem deleteOldPipelines_error_iff_listing_error_witness :
    DeleteOldPipelines 0 0 [.error "boom"] (fun _ _ => some "denied") =
      (.error ("list project pipelines: " ++ "boom"), []) ∧
    ∃ s, (DeleteOldPipelines 0 1
        [.ok { items := [some pipeAtZero], nextPage := none }]
        (fun _ _ => some "denied")).1 = .ok s :=
  ⟨(deleteOldPipelines_error_iff_listing_error 0 0 [.error "boom"]
      (fun _ _ => some "denied")).1 ("list project pipelines: " ++ "boom") rfl,
    (deleteOldPipelines_error_iff_listing_error 0 1
      [.ok { items := [some pipeAtZero], nextPage := none }]
      (fun _ _ => some "denied")).2 [mkSummary 0 pipeAtZero (some 0)] rfl⟩

end GitLabMCP
